import Mathlib

/-!
Shallow embedding of the core of the multi-room chat backend
(Go sources under internal/db, internal/rooms, internal/api and the
persistence package) together with theorems settling the spec claims.

Conventions of the embedding:
* UUIDs are abstracted as `Nat`; timestamps are `Nat` milliseconds.
* Machine `int64` message ids are `Nat` (BIGSERIAL, always positive and
  small in every scenario considered, so no overflow modelling is needed).
* SQL tables are lists of rows; a query is a Lean function implementing
  the WHERE / ORDER BY / LIMIT semantics of the SQL text in the source.
* Fallible operations return `Except Unit` or report a `Bool` success flag,
  mirroring the Go error returns.
-/

/-- A row of the `messages` table / the Go `models.Message` struct
(id, room_id, user_id, content, message_type, file_url, parent_id,
edited_at, deleted_at, created_at). -/
structure Message where
  id : Nat
  roomID : Nat
  userID : Nat
  content : String
  messageType : String
  fileURL : String
  parentID : Option Nat
  editedAt : Option Nat
  deletedAt : Option Nat
  createdAt : Nat
deriving DecidableEq, Repr

namespace Db

/-- The `messages` table: its rows plus the BIGSERIAL next-id counter. -/
structure MessagesTable where
  rows : List Message
  nextId : Nat
deriving DecidableEq, Repr

/-- `GetMessageByID` (db.go): `SELECT ... FROM messages WHERE id = $1 AND
deleted_at IS NULL`; `QueryRow` yields the first matching row or no row. -/
def GetMessageByID (tbl : MessagesTable) (messageID : Nat) : Option Message :=
  (tbl.rows.filter (fun m => m.id = messageID && m.deletedAt = none)).head?

/-- The SQL text built by `GetRoomMessages` (db.go lines 310-323), embedded
character for character where it matters: the limit placeholder is
`"$"` followed by `Char.ofNat (argCount + 1)`, the Lean rendering of Go's
`string(rune(len(args)+1))`.  `argCount` is 1 without the `before` filter
and 2 with it. -/
def getRoomMessagesQuery (before : Nat) : String :=
  let q0 := "SELECT id, room_id, user_id, content, message_type, file_url, parent_id, edited_at, deleted_at, created_at FROM messages WHERE room_id = $1 AND deleted_at IS NULL"
  let q1 := if before > 0 then q0 ++ " AND id < $2" else q0
  let argCount := if before > 0 then 2 else 1
  q1 ++ " ORDER BY created_at DESC LIMIT $" ++ String.singleton (Char.ofNat (argCount + 1))

/-- A PostgreSQL numbered parameter is `'$'` immediately followed by a
decimal digit.  `dollarsWellFormed s` checks that every `'$'` occurring in
`s` starts a valid numbered parameter; a query violating this is rejected
by the server with a syntax error before execution. -/
def dollarsWellFormed : List Char → Bool
  | [] => true
  | c :: rest =>
    if c = '$' then
      match rest with
      | [] => false
      | d :: rest2 => d.isDigit && dollarsWellFormed rest2
    else dollarsWellFormed rest

/-- Row-selection semantics of the `GetRoomMessages` WHERE clause:
`room_id = $1 AND deleted_at IS NULL` and, when `before > 0`, `id < $2`. -/
def roomMessagesFilter (roomID : Nat) (before : Nat) (m : Message) : Bool :=
  m.roomID = roomID && m.deletedAt = none && (before = 0 || m.id < before)

/-- `GetRoomMessages` (db.go): builds its SQL text, which the server parses
before executing; a malformed parameter reference makes the call return an
error.  When (counterfactually) well-formed, it returns the filtered rows,
newest first, truncated to `limit`. -/
def GetRoomMessages (tbl : MessagesTable) (roomID : Nat) (limit : Nat)
    (before : Nat) : Except Unit (List Message) :=
  if dollarsWellFormed (getRoomMessagesQuery before).toList then
    .ok (((tbl.rows.filter (roomMessagesFilter roomID before)).mergeSort
      (fun a b => b.createdAt ≤ a.createdAt)).take limit)
  else
    .error ()

/-- `SearchMessages` (db.go): `WHERE room_id = $1 AND deleted_at IS NULL AND
tsv @@ plainto_tsquery($2)` plus optional sender / before / after filters,
ordered by `ts_rank` descending then `created_at` descending, `LIMIT`.
The full-text match and the rank are abstracted as parameters. -/
def SearchMessages (tbl : MessagesTable) (roomID : Nat)
    (tsMatch : Message → Bool) (rank : Message → Nat) (limit : Nat)
    (senderID : Option Nat) (beforeTime : Option Nat) (afterTime : Option Nat) :
    List Message :=
  let sel := tbl.rows.filter (fun m =>
    m.roomID = roomID && m.deletedAt = none && tsMatch m &&
    (match senderID with | some u => m.userID = u | none => true) &&
    (match beforeTime with | some t => m.createdAt < t | none => true) &&
    (match afterTime with | some t => t < m.createdAt | none => true))
  (sel.mergeSort (fun a b =>
    rank b < rank a || (rank b = rank a && b.createdAt ≤ a.createdAt))).take limit

/-- A row of the `message_reads` table: (message_id, user_id, read_at).
Schema primary key: (message_id, user_id). -/
structure ReadRow where
  messageID : Nat
  userID : Nat
  readAt : Nat
deriving DecidableEq, Repr

/-- `MarkMessageRead` (db.go): `INSERT INTO message_reads (message_id,
user_id) VALUES ($1, $2) ON CONFLICT DO NOTHING`.  With primary key
(message_id, user_id), the insert is skipped when a row for the pair
already exists, and no error is raised. -/
def MarkMessageRead (tbl : List ReadRow) (messageID : Nat) (userID : Nat)
    (now : Nat) : List ReadRow :=
  if tbl.any (fun r => r.messageID = messageID && r.userID = userID) then tbl
  else tbl ++ [⟨messageID, userID, now⟩]

/-- Primary-key invariant of `message_reads`: at most one row per
(message_id, user_id) pair. -/
def readsPKUnique (tbl : List ReadRow) : Prop :=
  ∀ m u, (tbl.filter (fun r => r.messageID = m && r.userID = u)).length ≤ 1

/-- `IsRoomMember` (db.go): `SELECT EXISTS(SELECT 1 FROM room_members WHERE
room_id = $1 AND user_id = $2)` over a `room_members` table of
(room_id, user_id) pairs. -/
def IsRoomMember (members : List (Nat × Nat)) (roomID userID : Nat) :
    Except Unit Bool :=
  .ok (members.any (fun p => p.1 = roomID && p.2 = userID))

/-- `CreateMessage` (db.go lines 341-347): `INSERT INTO messages ...
RETURNING id, created_at`, executed on `db.pool` — the connection pool, in
autocommit mode — NOT on any caller-held transaction.  The row is durable
as soon as the statement succeeds.  The id is assigned by BIGSERIAL and
`created_at` by `NOW()` (`now` here). -/
def CreateMessage (tbl : MessagesTable) (msg : Message) (now : Nat) :
    MessagesTable × Message :=
  let stored : Message :=
    { msg with id := tbl.nextId, createdAt := now }
  ({ rows := tbl.rows ++ [stored], nextId := tbl.nextId + 1 }, stored)

end Db

namespace Persistence

/-- Possible outcomes of the `select` in `QueueMessage`. -/
inductive EnqueueOutcome
  /-- `mw.messageQueue <- msg` fired: the message is in the queue. -/
  | enqueued
  /-- `<-mw.done` fired: the pipeline is stopping, the message is dropped. -/
  | droppedStopping
  /-- neither branch is ready: the goroutine is suspended until one is. -/
  | blocked
deriving DecidableEq, Repr

/-- Capacity of `mw.messageQueue` (`make(chan *models.Message, 1000)`). -/
def queueCap : Nat := 1000

/-- `QueueMessage` (persistence writer): a two-branch `select` with no
`default` and no timeout.  The send branch is ready iff the buffered
channel has space; the `done` branch is ready iff `Stop` closed `done`.
When the send branch is ready the message is enqueued (when both are ready
Go picks either; the send is shown, the other choice only matters while
stopping).  With neither ready the call blocks. -/
def QueueMessage (queueLen : Nat) (doneClosed : Bool) : EnqueueOutcome :=
  if queueLen < queueCap then .enqueued
  else if doneClosed then .droppedStopping
  else .blocked

/-- Message fields supplied by the producer (everything `CreateMessage`
binds: room, author, content, type, file URL, parent). -/
def mkQueued (roomID userID : Nat) (content messageType fileURL : String)
    (now : Nat) : Message :=
  { id := 0, roomID := roomID, userID := userID, content := content,
    messageType := messageType, fileURL := fileURL, parentID := none,
    editedAt := none, deletedAt := none, createdAt := now }

/-- Inner loop of one `writeBatch` attempt (persistence writer, lines
129-139): for each message in order, call `mw.db.CreateMessage` — which
runs on the POOL in autocommit mode, so each success is durable at once —
and on the first failure call `x.Rollback` and break.  The transaction `x`
begun at line 122 never had any statement executed on it, so the rollback
undoes nothing: the rows inserted so far stay.  `insertOk i` says whether
the insert of the i-th message of the batch succeeds. -/
def insertLoop (insertOk : Nat → Bool) (now : Nat) :
    Db.MessagesTable → List Message → Nat → Db.MessagesTable × Bool
  | tbl, [], _ => (tbl, true)
  | tbl, m :: rest, idx =>
    if insertOk idx then
      insertLoop insertOk now (Db.CreateMessage tbl m now).1 rest (idx + 1)
    else
      (tbl, false)

/-- Retry loop of `writeBatch` (persistence writer, lines 119-169):
up to `maxRetries = 5` attempts; each attempt begins a transaction `x`,
runs `insertLoop`, and on full success commits `x` (an empty transaction)
and publishes.  `beginOk a` / `commitOk a` say whether Begin / Commit of
attempt `a` succeed; `insertOk a i` whether insert `i` of attempt `a`
succeeds.  Returns the final durable table and whether the batch was
reported persisted.  Backoff sleeps are irrelevant to the state and
omitted. -/
def writeBatchGo (beginOk : Nat → Bool) (insertOk : Nat → Nat → Bool)
    (commitOk : Nat → Bool) (now : Nat) (batch : List Message) :
    Nat → List Nat → Db.MessagesTable → Db.MessagesTable × Bool
  | _, [], tbl => (tbl, false)
  | fuel, attempt :: restAttempts, tbl =>
    match fuel with
    | 0 => (tbl, false)
    | fuel + 1 =>
      if beginOk attempt then
        let (tbl2, all) := insertLoop (insertOk attempt) now tbl batch 0
        if all then
          if commitOk attempt then (tbl2, true)
          else writeBatchGo beginOk insertOk commitOk now batch fuel restAttempts tbl2
        else
          writeBatchGo beginOk insertOk commitOk now batch fuel restAttempts tbl2
      else
        writeBatchGo beginOk insertOk commitOk now batch fuel restAttempts tbl

/-- `writeBatch` entry point: `maxRetries = 5` attempts, numbered 0-4. -/
def writeBatch (beginOk : Nat → Bool) (insertOk : Nat → Nat → Bool)
    (commitOk : Nat → Bool) (now : Nat) (tbl : Db.MessagesTable)
    (batch : List Message) : Db.MessagesTable × Bool :=
  if batch.isEmpty then (tbl, true)
  else writeBatchGo beginOk insertOk commitOk now batch 5 [0, 1, 2, 3, 4] tbl

end Persistence

namespace Rooms

/-- Tick period of the typing-cleanup ticker in `handleRoom`
(`time.NewTicker(5 * time.Second)`), in milliseconds. -/
def typingTickPeriod : Nat := 5000

/-- Staleness threshold of the typing cleanup (`now.Sub(lastTyping) >
3*time.Second`), in milliseconds. -/
def typingStale : Nat := 3000

/-- `HandleTypingEvent` (manager.go lines 27-44), tracker part: on
`isTyping` record (user, now); otherwise delete the user's entry.  (The
broadcast it also emits is modelled with the session effects below.) -/
def HandleTypingEvent (trackers : List (Nat × Nat)) (userID : Nat)
    (isTyping : Bool) (now : Nat) : List (Nat × Nat) :=
  if isTyping then
    (trackers.filter (fun p => p.1 ≠ userID)) ++ [(userID, now)]
  else
    trackers.filter (fun p => p.1 ≠ userID)

/-- The ticker case of `handleRoom` (manager.go lines 259-268): delete
every tracker entry with `now.Sub(lastTyping) > 3*time.Second`. -/
def expireTyping (now : Nat) (trackers : List (Nat × Nat)) :
    List (Nat × Nat) :=
  trackers.filter (fun p => ¬ (now - p.2 > typingStale))

/-- Tick times of a room's ticker: every multiple of `typingTickPeriod`
from room start (taken as time 0) up to and including `t`. -/
def ticksThrough (t : Nat) : List Nat :=
  ((List.range (t / typingTickPeriod + 1)).map
    (fun k => typingTickPeriod * (k + 1))).filter (fun T => T ≤ t)

/-- Tracker state observed at time `queryT` when user `u` sent
`typing_start` at time `startT` and nothing afterwards: the entry
(u, startT) filtered by every tick that fired in (startT, queryT]. -/
def typingTrackerAt (u startT queryT : Nat) : List (Nat × Nat) :=
  ((ticksThrough queryT).filter (fun T => startT < T)).foldl
    (fun trk T => expireTyping T trk) [(u, startT)]

/-- A session's state as the room's broadcast loop sees it: an id, the
buffered `send` channel contents, and whether `close(client.send)` has
happened (only the unregister case of `handleRoom` does that). -/
structure BClient where
  id : Nat
  send : List Nat
  sendClosed : Bool
deriving DecidableEq, Repr

/-- Capacity of a client's `send` channel (`make(chan interface{}, 256)`). -/
def sendCap : Nat := 256

/-- The broadcast case of `handleRoom` (manager.go lines 244-257): for
each client a non-blocking send — enqueue when the channel has space,
otherwise `default:` skip.  Nothing else about any client changes: no
counter is kept, nobody is unregistered, no channel is closed. -/
def broadcastToClients (clients : List BClient) (event : Nat) :
    List BClient :=
  clients.map (fun c =>
    if c.send.length < sendCap then { c with send := c.send ++ [event] }
    else c)

/-- Registry state: the `rooms` map (room id → attached client ids) and
the `lastActivity` map, both guarded by `roomsMu`. -/
structure MgrState where
  rooms : List (Nat × List Nat)
  lastActivity : List (Nat × Nat)
deriving DecidableEq, Repr

/-- Map update helper used by the embedding (Go map assignment). -/
def setAssoc (m : List (Nat × α)) (k : Nat) (v : α) : List (Nat × α) :=
  (m.filter (fun p => p.1 ≠ k)) ++ [(k, v)]

/-- Map lookup helper (Go map read). -/
def getAssoc (m : List (Nat × α)) (k : Nat) : Option α :=
  (m.filter (fun p => p.1 = k)).head? |>.map Prod.snd

/-- `GetOrCreateRoom` (manager.go lines 155-179): return the existing room
updating `lastActivity`, or insert a fresh empty room with initial
activity `now`. -/
def GetOrCreateRoom (s : MgrState) (roomID now : Nat) : MgrState :=
  match getAssoc s.rooms roomID with
  | some _ => { s with lastActivity := setAssoc s.lastActivity roomID now }
  | none =>
      { rooms := setAssoc s.rooms roomID [],
        lastActivity := setAssoc s.lastActivity roomID now }

/-- The register case of `handleRoom` (manager.go lines 207-216): add the
client to the room's set and update `lastActivity`. -/
def registerClient (s : MgrState) (roomID clientID now : Nat) : MgrState :=
  match getAssoc s.rooms roomID with
  | none => s
  | some cs =>
      { rooms := setAssoc s.rooms roomID (cs ++ [clientID]),
        lastActivity := setAssoc s.lastActivity roomID now }

/-- The unregister case of `handleRoom` (manager.go lines 218-242): remove
the client; the returned flag says whether the room became empty, in which
case a goroutine sleeps one minute and then sends the room id on
`m.unregisterRoom`, which makes the manager loop call `removeRoom`. -/
def unregisterClient (s : MgrState) (roomID clientID : Nat) :
    MgrState × Bool :=
  match getAssoc s.rooms roomID with
  | none => (s, false)
  | some cs =>
      let cs2 := cs.filter (fun c => c ≠ clientID)
      ({ s with rooms := setAssoc s.rooms roomID cs2 }, cs2.isEmpty)

/-- `removeRoom` (manager.go lines 187-198): delete the entry from the
rooms map if present and close its broadcast channel.  There is NO check
of the room's client set: the removal is unconditional. -/
def removeRoom (s : MgrState) (roomID : Nat) : MgrState :=
  { s with rooms := s.rooms.filter (fun p => p.1 ≠ roomID) }

/-- One sweep of `evictColdRooms` (manager.go lines 316-329): delete every
room whose `lastActivity` is older than `inactivityThreshold` AND whose
client set is empty, removing it from both maps. -/
def sweepEvict (s : MgrState) (now threshold : Nat) : MgrState :=
  let evictable := fun rid =>
    match getAssoc s.lastActivity rid, getAssoc s.rooms rid with
    | some lastActive, some cs => now - lastActive > threshold && cs.isEmpty
    | _, _ => false
  { rooms := s.rooms.filter (fun p => ! evictable p.1),
    lastActivity := s.lastActivity.filter (fun p => ! evictable p.1) }

/-- An inbound wire frame as `readPump` reads it: the decoded JSON map
restricted to the fields the dispatch looks at.  `none` stands for a
missing key or a value of the wrong dynamic type. -/
structure Frame where
  type : String
  content : Option String
  messageType : Option String
  fileURL : Option String
  messageID : Option Nat
deriving DecidableEq, Repr

/-- Observable actions a session performs while handling one frame. -/
inductive Effect
  /-- `c.messageWriter.QueueMessage(msg)` — hand to the Write Pipeline. -/
  | queueMessage (m : Message)
  /-- `c.room.HandleTypingEvent(c.userID, isTyping)`. -/
  | typing (userID : Nat) (isTyping : Bool)
  /-- `c.room.manager.db.MarkMessageRead(messageID, c.userID)`. -/
  | markRead (messageID userID : Nat)
  /-- `c.room.broadcast <- msg` — a local broadcast to the room. -/
  | roomBroadcast (f : Frame)
  /-- `log.Printf(...)` then `continue` — the frame is dropped. -/
  | logDrop
deriving DecidableEq, Repr

/-- The dispatch of `readPump` (client, lines 82-113) together with
`handleChatMessage` (lines 152-164) and `handleRead` (lines 167-171), for
one decoded frame.  `roomID` and `userID` are the session's
`c.room.ID` and `c.userID`; `now` is `time.Now()` at handling time. -/
def handleFrame (roomID userID now : Nat) (f : Frame) : List Effect :=
  if f.type = "message" then
    match f.content with
    | none => [.logDrop]
    | some c =>
        [.queueMessage (Persistence.mkQueued roomID userID c
          (f.messageType.getD "") (f.fileURL.getD "") now)]
  else if f.type = "typing_start" then [.typing userID true]
  else if f.type = "typing_stop" then [.typing userID false]
  else if f.type = "read" then
    match f.messageID with
    | none => [.logDrop]
    | some mid => [.markRead mid userID]
  else if f.type = "message_edited" || f.type = "message_deleted" then
    [.roomBroadcast f]
  else if f.type = "reaction_added" || f.type = "reaction_removed" then
    [.roomBroadcast f]
  else [.logDrop]

end Rooms

namespace Api

/-- Terminal outcomes of `WebSocketHandler` (websocket.go lines 26-90). -/
inductive WSResult
  /-- `http.Error(w, ..., http.StatusUnauthorized)` — 401. -/
  | unauthorized
  /-- `http.Error(w, ..., http.StatusBadRequest)` — 400. -/
  | badRequest
  /-- `http.Error(w, "Not a member of this room", http.StatusForbidden)`. -/
  | forbidden
  /-- `upgrader.Upgrade` returned an error after all checks passed. -/
  | upgradeFailed
  /-- connection upgraded; a client for (userID, roomID) is started. -/
  | connected (userID roomID : Nat)
deriving DecidableEq, Repr

/-- `WebSocketHandler` (websocket.go): token presence and validity, then
`room_id` presence and parse, then `IsRoomMember`; only after all of these
does `upgrader.Upgrade` run.  `validateToken` abstracts
`jwtMgr.ValidateToken` (the claims' user id on success), `parseRoomID`
abstracts `uuid.Parse`, `memberCheck` abstracts the `IsRoomMember` call
(`.error` = the query erred), `upgradeOk` whether the upgrade itself
succeeds. -/
def WebSocketHandler (token : String) (validateToken : String → Option Nat)
    (roomIDStr : String) (parseRoomID : String → Option Nat)
    (memberCheck : Nat → Nat → Except Unit Bool) (upgradeOk : Bool) :
    WSResult :=
  if token = "" then .unauthorized
  else
    match validateToken token with
    | none => .unauthorized
    | some userID =>
      if roomIDStr = "" then .badRequest
      else
        match parseRoomID roomIDStr with
        | none => .badRequest
        | some roomID =>
          match memberCheck roomID userID with
          | .error _ => .forbidden
          | .ok false => .forbidden
          | .ok true =>
              if upgradeOk then .connected userID roomID else .upgradeFailed

end Api

/-- C10: for every input, the SQL text built by `GetRoomMessages` ends its
LIMIT clause with `'$'` followed by the character of code point
`len(args)+1` — the control character U+0002 (no `before` filter) or
U+0003 (`before > 0`), not a decimal digit — so the text holds no valid
numbered placeholder for the limit argument and the operation returns an
error for every input. -/
theorem getRoomMessages_limit_placeholder_is_control_char
    (tbl : Db.MessagesTable) (roomID limit before : Nat) :
    (Db.getRoomMessagesQuery before).toList.getLast? =
      some (Char.ofNat (if before > 0 then 3 else 2)) ∧
    (Char.ofNat (if before > 0 then 3 else 2)).isDigit = false ∧
    Db.dollarsWellFormed (Db.getRoomMessagesQuery before).toList = false ∧
    Db.GetRoomMessages tbl roomID limit before = .error () := by
  match before with
  | 0 => exact ⟨by decide, by decide, by decide, rfl⟩
  | b + 1 =>
      have h : b + 1 > 0 := Nat.succ_pos b
      have hq : Db.getRoomMessagesQuery (b + 1) = Db.getRoomMessagesQuery 1 := by
        simp [Db.getRoomMessagesQuery]
      rw [if_pos h]
      have hwf : Db.dollarsWellFormed (Db.getRoomMessagesQuery 1).toList
          = false := by decide
      refine ⟨?_, by decide, ?_, ?_⟩
      · rw [hq]; decide
      · rw [hq]; exact hwf
      · unfold Db.GetRoomMessages
        rw [hq, hwf]
        simp

/-- After `MarkMessageRead tbl m u t1` the table holds a row for the pair
(m, u): either it already did, or the insert just added one. -/
theorem markMessageRead_has_pair (tbl : List Db.ReadRow) (m u t1 : Nat) :
    (Db.MarkMessageRead tbl m u t1).any
      (fun r => r.messageID = m && r.userID = u) = true := by
  unfold Db.MarkMessageRead
  by_cases h : tbl.any (fun r => r.messageID = m && r.userID = u) = true
  · rw [if_pos h]; exact h
  · rw [if_neg h, List.any_append]
    have hrow : ([(⟨m, u, t1⟩ : Db.ReadRow)].any
        (fun r => r.messageID = m && r.userID = u)) = true := by simp
    rw [hrow, Bool.or_true]

/-- `MarkMessageRead` on a table that already holds a row for the pair is
the identity (the `ON CONFLICT DO NOTHING` branch). -/
theorem markMessageRead_noop (tbl : List Db.ReadRow) (m u t2 : Nat)
    (h : tbl.any (fun r => r.messageID = m && r.userID = u) = true) :
    Db.MarkMessageRead tbl m u t2 = tbl := by
  unfold Db.MarkMessageRead
  rw [if_pos h]

/-- `MarkMessageRead` preserves the primary-key invariant of
`message_reads`. -/
theorem markMessageRead_preserves_pk (tbl : List Db.ReadRow)
    (m u t1 : Nat) (hpk : Db.readsPKUnique tbl) :
    Db.readsPKUnique (Db.MarkMessageRead tbl m u t1) := by
  unfold Db.MarkMessageRead
  by_cases h : tbl.any (fun r => r.messageID = m && r.userID = u) = true
  · rw [if_pos h]; exact hpk
  · rw [if_neg h]
    intro m2 u2
    rw [List.filter_append, List.length_append]
    by_cases hsame : m = m2 ∧ u = u2
    · obtain ⟨rfl, rfl⟩ := hsame
      have hnil : tbl.filter (fun r => r.messageID = m && r.userID = u)
          = [] := by
        rw [List.filter_eq_nil_iff]
        intro r hr hq
        exact h (List.any_eq_true.mpr ⟨r, hr, hq⟩)
      rw [hnil]
      simp only [List.length_nil, Nat.zero_add]
      exact List.length_filter_le _ _
    · have hrow : ((⟨m, u, t1⟩ : Db.ReadRow).messageID = m2 &&
          (⟨m, u, t1⟩ : Db.ReadRow).userID = u2) = false := by
        by_cases hm : m = m2
        · have hu : u ≠ u2 := fun hu => hsame ⟨hm, hu⟩
          simp [hm, hu]
        · simp [hm]
      have hone : List.filter (fun r => r.messageID = m2 && r.userID = u2)
          [(⟨m, u, t1⟩ : Db.ReadRow)] = [] := by
        simp only [List.filter, hrow]
      rw [hone]
      simp only [List.length_nil, Nat.add_zero]
      exact hpk m2 u2

/-- C9: `MarkMessageRead` is idempotent per (message, user) pair — a
second call with the same pair leaves the table exactly as after the
first (and raises no error, the `ON CONFLICT DO NOTHING` insert being
total) — and it preserves the primary-key invariant that at most one
receipt exists per pair. -/
theorem markMessageRead_idempotent (tbl : List Db.ReadRow)
    (m u t1 t2 : Nat) (hpk : Db.readsPKUnique tbl) :
    Db.MarkMessageRead (Db.MarkMessageRead tbl m u t1) m u t2 =
      Db.MarkMessageRead tbl m u t1 ∧
    Db.readsPKUnique (Db.MarkMessageRead tbl m u t1) :=
  ⟨markMessageRead_noop _ m u t2 (markMessageRead_has_pair tbl m u t1),
   markMessageRead_preserves_pk tbl m u t1 hpk⟩

/-- Witness for C9 at the empty table and pair (1, 2). -/
theorem markMessageRead_idempotent_witness :
    Db.readsPKUnique ([] : List Db.ReadRow) ∧
    (Db.MarkMessageRead (Db.MarkMessageRead [] 1 2 5) 1 2 9 =
        Db.MarkMessageRead [] 1 2 5 ∧
      Db.readsPKUnique (Db.MarkMessageRead [] 1 2 5)) :=
  ⟨fun m u => by simp, markMessageRead_idempotent [] 1 2 5 9
    (fun m u => by simp)⟩

/-- C4 counterexample: with the pipeline running (`done` not closed) and
the queue full, `QueueMessage` neither enqueues nor returns a failure —
the bare two-branch `select` leaves the caller blocked until space frees
or the pipeline stops, so the call does not fail fast. -/
theorem queueMessage_full_queue_blocks :
    Persistence.QueueMessage Persistence.queueCap false =
      Persistence.EnqueueOutcome.blocked ∧
    Persistence.QueueMessage Persistence.queueCap false ≠
      Persistence.EnqueueOutcome.enqueued ∧
    Persistence.QueueMessage Persistence.queueCap false ≠
      Persistence.EnqueueOutcome.droppedStopping := by
  decide

/-- C4 amended: whenever the pipeline is running and its queue is at (or
beyond) capacity, `QueueMessage` blocks — it is suspended until queue
space frees or the pipeline stops, and never returns without enqueuing. -/
theorem queueMessage_full_queue_blocks_indefinitely (queueLen : Nat)
    (h : Persistence.queueCap ≤ queueLen) :
    Persistence.QueueMessage queueLen false =
      Persistence.EnqueueOutcome.blocked := by
  simp [Persistence.QueueMessage, Nat.not_lt.mpr h]

/-- Witness for the amended C4 at queue length 1000. -/
theorem queueMessage_full_queue_blocks_indefinitely_witness :
    Persistence.queueCap ≤ 1000 ∧
    Persistence.QueueMessage 1000 false =
      Persistence.EnqueueOutcome.blocked :=
  ⟨by decide, queueMessage_full_queue_blocks_indefinitely 1000 (by decide)⟩

/-- The two-message batch of the C1 scenario. -/
def batchC1 : List Message :=
  [Persistence.mkQueued 1 10 "hello" "text" "" 0,
   Persistence.mkQueued 1 11 "world" "text" "" 0]

/-- The C1 run: `writeBatch` on `batchC1` against an empty table, where
every insert of the second message fails while Begin, Commit and the
inserts of the first message succeed. -/
def writeBatchC1run : Db.MessagesTable × Bool :=
  Persistence.writeBatch (fun _ => true) (fun _ idx => idx == 0)
    (fun _ => true) 0 ⟨[], 1⟩ batchC1

/-- C1: `writeBatch` is NOT all-or-nothing.  `CreateMessage` executes on
`db.pool` (autocommit), not on the transaction `x` that `writeBatch`
begins, so each successful insert is durable immediately and
`x.Rollback` undoes nothing.  On the batch [m1, m2] where every insert of
m2 fails (Begin and Commit always succeed), the batch is reported failed,
yet the durable store gained five rows — one copy of m1 per retry
attempt — instead of remaining unchanged. -/
theorem writeBatch_failed_batch_mutates_store :
    writeBatchC1run.2 = false ∧
    writeBatchC1run.1.rows.length = 5 ∧
    writeBatchC1run.1.rows.all (fun m => m.content = "hello") = true ∧
    writeBatchC1run.1 ≠ ⟨[], 1⟩ := by
  decide

/-- C2 trace, first part: room 100 is created, client 7 joins at time 1
and leaves; the second component says whether the room became empty and
the one-shot grace probe was scheduled. -/
def traceC2afterLeave : Rooms.MgrState × Bool :=
  Rooms.unregisterClient
    (Rooms.registerClient (Rooms.GetOrCreateRoom ⟨[], []⟩ 100 0) 100 7 1)
    100 7

/-- C2 trace, second part: client 8 joins room 100 at time 2, during the
grace window of the pending probe. -/
def traceC2beforeProbe : Rooms.MgrState :=
  Rooms.registerClient traceC2afterLeave.1 100 8 2

/-- C2 trace, third part: the probe fires — the manager loop receives the
room id on `unregisterRoom` and calls `removeRoom`. -/
def traceC2afterProbe : Rooms.MgrState :=
  Rooms.removeRoom traceC2beforeProbe 100

/-- C2: a non-empty room CAN be removed from the registry.  Client 7
joins and leaves room 100, scheduling the one-shot grace probe; client 8
joins during the grace window; the probe fires and `removeRoom` deletes
room 100 although its client set is [8].  The sweeper, by contrast, would
not have evicted it: `sweepEvict` leaves the state unchanged even at idle
time far past the threshold. -/
theorem removeRoom_removes_nonempty_room :
    traceC2afterLeave.2 = true ∧
    Rooms.getAssoc traceC2beforeProbe.rooms 100 = some [8] ∧
    Rooms.getAssoc traceC2afterProbe.rooms 100 = none ∧
    Rooms.sweepEvict traceC2beforeProbe 1000000 600000 =
      traceC2beforeProbe := by
  decide

/-- C6 counterexample: user 4 sends `typing_start` at t = 4000 ms and
nothing afterwards; the ticker fires at multiples of 5000 ms.  At
t + 3000 = 7000 ms the only tick so far was at 5000 ms, where the entry
was 1000 ms old (not > 3000), so the entry is still in the tracker:
expiry "within at most 3 seconds" fails. -/
theorem typing_entry_survives_past_3s :
    Rooms.typingTrackerAt 4 4000 7000 = [(4, 4000)] ∧
    Rooms.typingTrackerAt 4 4000 7000 ≠ [] := by
  decide

/-- First ticker time strictly later than `t + typingStale` — the tick at
which an entry recorded at `t` gets expired.  A derived quantity of the
model (the ticker of `handleRoom` fires at multiples of
`typingTickPeriod`). -/
def Rooms.firstExpiryTick (t : Nat) : Nat :=
  Rooms.typingTickPeriod * ((t + Rooms.typingStale) / Rooms.typingTickPeriod + 1)

/-- C6 amended: a typing entry recorded at `t` with no further events is
removed by the periodic expiry at the first 5 s tick whose time exceeds
`t` + 3 s — without any `typing_stop` — which happens within at most
3 + 5 = 8 seconds of the `typing_start`, not within 3 seconds. -/
theorem typing_entry_expired_at_first_late_tick (u t : Nat) :
    Rooms.expireTyping (Rooms.firstExpiryTick t) [(u, t)] = [] ∧
    t + Rooms.typingStale < Rooms.firstExpiryTick t ∧
    Rooms.firstExpiryTick t ≤ t + Rooms.typingStale + Rooms.typingTickPeriod ∧
    Rooms.firstExpiryTick t % Rooms.typingTickPeriod = 0 := by
  have h5 : Rooms.typingTickPeriod = 5000 := rfl
  have h3 : Rooms.typingStale = 3000 := rfl
  have hT : Rooms.firstExpiryTick t = 5000 * ((t + 3000) / 5000 + 1) := by
    rw [Rooms.firstExpiryTick, h5, h3]
  have hgt : t + 3000 < Rooms.firstExpiryTick t := by rw [hT]; omega
  have hsub : 3000 < Rooms.firstExpiryTick t - t := by omega
  refine ⟨?_, ?_, ?_, ?_⟩
  · simp [Rooms.expireTyping, h3, List.filter, hsub]
  · rw [h3]; exact hgt
  · rw [h3, h5, hT]; omega
  · rw [h5, hT]; omega

set_option maxRecDepth 4096 in
/-- C3 counterexample: a session whose outbound queue is full suffers
three consecutive broadcast drops and remains exactly as it was — still
attached, queue open, nothing marks it for disconnect (the broadcast loop
keeps no drop count and never closes a client). -/
theorem broadcast_three_drops_no_disconnect :
    let full : Rooms.BClient := ⟨7, List.replicate Rooms.sendCap 0, false⟩
    Rooms.broadcastToClients (Rooms.broadcastToClients
        (Rooms.broadcastToClients [full] 1) 2) 3 = [full] ∧
    full.sendClosed = false := by
  decide

/-- C3 amended: when a broadcast finds a session's queue full, the frame
is dropped for that session only — sessions with space receive it, ids
and open/closed state of every session are untouched, and the dropped-on
session stays attached; no count of consecutive drops exists and no drop
ever closes a session. -/
theorem broadcast_drop_only_affected_session
    (clients : List Rooms.BClient) (event : Nat) :
    (Rooms.broadcastToClients clients event).map (fun c => c.id) =
      clients.map (fun c => c.id) ∧
    (Rooms.broadcastToClients clients event).map (fun c => c.sendClosed) =
      clients.map (fun c => c.sendClosed) ∧
    ∀ c ∈ clients,
      (Rooms.sendCap ≤ c.send.length →
        c ∈ Rooms.broadcastToClients clients event) ∧
      (c.send.length < Rooms.sendCap →
        ({ c with send := c.send ++ [event] } : Rooms.BClient) ∈
          Rooms.broadcastToClients clients event) := by
  refine ⟨?_, ?_, ?_⟩
  · unfold Rooms.broadcastToClients
    rw [List.map_map]
    apply List.map_congr_left
    intro c _
    by_cases hlt : c.send.length < Rooms.sendCap <;> simp [hlt]
  · unfold Rooms.broadcastToClients
    rw [List.map_map]
    apply List.map_congr_left
    intro c _
    by_cases hlt : c.send.length < Rooms.sendCap <;> simp [hlt]
  · intro c hc
    constructor
    · intro hfull
      unfold Rooms.broadcastToClients
      refine List.mem_map.mpr ⟨c, hc, ?_⟩
      exact if_neg (Nat.not_lt.mpr hfull)
    · intro hlt
      unfold Rooms.broadcastToClients
      refine List.mem_map.mpr ⟨c, hc, ?_⟩
      exact if_pos hlt

set_option maxRecDepth 4096 in
/-- Witness for the amended C3: in a room with a free session and a full
one, the full session is still attached after the broadcast. -/
theorem broadcast_drop_only_affected_session_witness :
    (⟨2, List.replicate Rooms.sendCap 0, false⟩ : Rooms.BClient) ∈
      [(⟨1, [], false⟩ : Rooms.BClient),
       ⟨2, List.replicate Rooms.sendCap 0, false⟩] ∧
    Rooms.sendCap ≤
      (⟨2, List.replicate Rooms.sendCap 0, false⟩ : Rooms.BClient).send.length ∧
    (⟨2, List.replicate Rooms.sendCap 0, false⟩ : Rooms.BClient) ∈
      Rooms.broadcastToClients
        [⟨1, [], false⟩, ⟨2, List.replicate Rooms.sendCap 0, false⟩] 9 :=
  ⟨by decide, by decide,
   ((broadcast_drop_only_affected_session
       [⟨1, [], false⟩, ⟨2, List.replicate Rooms.sendCap 0, false⟩] 9).2.2
     ⟨2, List.replicate Rooms.sendCap 0, false⟩ (by decide)).1 (by decide)⟩

/-- C5: an inbound frame of type `"message"` carrying its required
`content` field makes the session enqueue to the Write Pipeline exactly
one Message whose room is the session's room, whose author is the
session's user and whose creation timestamp is now — and it produces no
local room broadcast (delivery happens only via the Sync Bus after the
durable commit). -/
theorem messageFrame_enqueued_not_broadcast (roomID userID now : Nat)
    (f : Rooms.Frame) (c : String) (ht : f.type = "message")
    (hc : f.content = some c) :
    Rooms.handleFrame roomID userID now f =
      [Rooms.Effect.queueMessage (Persistence.mkQueued roomID userID c
        (f.messageType.getD "") (f.fileURL.getD "") now)] ∧
    (Persistence.mkQueued roomID userID c (f.messageType.getD "")
        (f.fileURL.getD "") now).roomID = roomID ∧
    (Persistence.mkQueued roomID userID c (f.messageType.getD "")
        (f.fileURL.getD "") now).userID = userID ∧
    (Persistence.mkQueued roomID userID c (f.messageType.getD "")
        (f.fileURL.getD "") now).createdAt = now ∧
    ∀ e ∈ Rooms.handleFrame roomID userID now f, ∀ g,
      e ≠ Rooms.Effect.roomBroadcast g := by
  have h1 : Rooms.handleFrame roomID userID now f =
      [Rooms.Effect.queueMessage (Persistence.mkQueued roomID userID c
        (f.messageType.getD "") (f.fileURL.getD "") now)] := by
    simp [Rooms.handleFrame, ht, hc]
  refine ⟨h1, rfl, rfl, rfl, ?_⟩
  rw [h1]
  intro e he g
  rw [List.mem_singleton] at he
  subst he
  intro hcontra
  exact Rooms.Effect.noConfusion hcontra

/-- Witness for C5 on the frame `{type: "message", content: "hi"}`. -/
theorem messageFrame_enqueued_not_broadcast_witness :
    (⟨"message", some "hi", none, none, none⟩ : Rooms.Frame).type =
      "message" ∧
    (⟨"message", some "hi", none, none, none⟩ : Rooms.Frame).content =
      some "hi" ∧
    (Rooms.handleFrame 1 2 3 ⟨"message", some "hi", none, none, none⟩ =
      [Rooms.Effect.queueMessage (Persistence.mkQueued 1 2 "hi" "" "" 3)] ∧
    (Persistence.mkQueued 1 2 "hi" "" "" 3).roomID = 1 ∧
    (Persistence.mkQueued 1 2 "hi" "" "" 3).userID = 2 ∧
    (Persistence.mkQueued 1 2 "hi" "" "" 3).createdAt = 3 ∧
    ∀ e ∈ Rooms.handleFrame 1 2 3 ⟨"message", some "hi", none, none, none⟩,
      ∀ g, e ≠ Rooms.Effect.roomBroadcast g) :=
  ⟨rfl, rfl,
   messageFrame_enqueued_not_broadcast 1 2 3
     ⟨"message", some "hi", none, none, none⟩ "hi" rfl rfl⟩

/-- Everything the three deleted-filtering read paths can return on one
input family: the optional `GetMessageByID` hit, the page of
`GetRoomMessages` (empty on error) and the `SearchMessages` results. -/
def readPathResults (tbl : Db.MessagesTable) (mid roomID limit before : Nat)
    (tsMatch : Message → Bool) (rank : Message → Nat)
    (senderID beforeTime afterTime : Option Nat) : List Message :=
  (Db.GetMessageByID tbl mid).toList ++
  (match Db.GetRoomMessages tbl roomID limit before with
   | .ok l => l
   | .error _ => []) ++
  Db.SearchMessages tbl roomID tsMatch rank limit senderID beforeTime afterTime

/-- C7: every message returned by `GetMessageByID`, `GetRoomMessages` or
`SearchMessages` has a null deleted-at — a soft-deleted message never
surfaces through these read paths. -/
theorem readPaths_never_return_deleted (tbl : Db.MessagesTable)
    (mid roomID limit before : Nat) (tsMatch : Message → Bool)
    (rank : Message → Nat) (senderID beforeTime afterTime : Option Nat)
    (m : Message)
    (hm : m ∈ readPathResults tbl mid roomID limit before tsMatch rank
      senderID beforeTime afterTime) :
    m.deletedAt = none := by
  unfold readPathResults at hm
  rw [List.append_assoc, List.mem_append] at hm
  rcases hm with hm | hm
  · unfold Db.GetMessageByID at hm
    rcases hq : (tbl.rows.filter
        (fun x => x.id = mid && x.deletedAt = none)).head? with _ | m2
    · rw [hq] at hm; simp at hm
    · rw [hq] at hm
      simp only [Option.toList_some, List.mem_singleton] at hm
      subst hm
      have hmem : m ∈ tbl.rows.filter
          (fun x => x.id = mid && x.deletedAt = none) := by
        rcases hl : tbl.rows.filter (fun x => x.id = mid && x.deletedAt = none)
          with _ | ⟨a, l⟩
        · rw [hl] at hq; simp at hq
        · rw [hl] at hq
          simp only [List.head?_cons, Option.some.injEq] at hq
          rw [hl, hq]
          exact List.mem_cons_self _ _
      have := (List.mem_filter.mp hmem).2
      simp only [Bool.and_eq_true, decide_eq_true_eq] at this
      exact this.2
  · rw [List.mem_append] at hm
    rcases hm with hm | hm
    · unfold Db.GetRoomMessages at hm
      by_cases hwf : Db.dollarsWellFormed
          (Db.getRoomMessagesQuery before).toList = true
      · rw [if_pos hwf] at hm
        have hmem : m ∈ tbl.rows.filter (Db.roomMessagesFilter roomID before) :=
          List.mem_mergeSort.mp (List.mem_of_mem_take hm)
        have := (List.mem_filter.mp hmem).2
        unfold Db.roomMessagesFilter at this
        simp only [Bool.and_eq_true, decide_eq_true_eq] at this
        exact this.1.2
      · rw [if_neg hwf] at hm
        simp at hm
    · unfold Db.SearchMessages at hm
      have hmem := List.mem_mergeSort.mp (List.mem_of_mem_take hm)
      have := (List.mem_filter.mp hmem).2
      simp only [Bool.and_eq_true, decide_eq_true_eq] at this
      exact this.1.1.1.1.2

/-- Witness table for C7: one live message in room 5. -/
def tblC7 : Db.MessagesTable :=
  ⟨[⟨1, 5, 9, "live", "text", "", none, none, none, 40⟩], 2⟩

/-- Witness for C7: the live message is returned by `GetMessageByID` (and
by `SearchMessages`) on the witness table, and its deleted-at is null. -/
theorem readPaths_never_return_deleted_witness :
    (⟨1, 5, 9, "live", "text", "", none, none, none, 40⟩ : Message) ∈
      readPathResults tblC7 1 5 10 0 (fun _ => true) (fun _ => 0)
        none none none ∧
    (⟨1, 5, 9, "live", "text", "", none, none, none, 40⟩ :
      Message).deletedAt = none :=
  ⟨by decide,
   readPaths_never_return_deleted tblC7 1 5 10 0 (fun _ => true) (fun _ => 0)
     none none none ⟨1, 5, 9, "live", "text", "", none, none, none, 40⟩
     (by decide)⟩

/-- C8: the WebSocket upgrade is reachable only when the token is present
and valid, the room id is present and parses, and the membership check
returned true with no error; and whenever the membership check errs or
returns false after the earlier checks passed, the handler answers 403
(`forbidden`) and no upgrade happens. -/
theorem webSocketHandler_membership_gates_upgrade (token : String)
    (validateToken : String → Option Nat) (roomIDStr : String)
    (parseRoomID : String → Option Nat)
    (memberCheck : Nat → Nat → Except Unit Bool) (upgradeOk : Bool) :
    (∀ u r, Api.WebSocketHandler token validateToken roomIDStr parseRoomID
        memberCheck upgradeOk = .connected u r →
      token ≠ "" ∧ validateToken token = some u ∧ roomIDStr ≠ "" ∧
      parseRoomID roomIDStr = some r ∧ memberCheck r u = .ok true) ∧
    (∀ u r, token ≠ "" → validateToken token = some u → roomIDStr ≠ "" →
      parseRoomID roomIDStr = some r → memberCheck r u ≠ .ok true →
      Api.WebSocketHandler token validateToken roomIDStr parseRoomID
        memberCheck upgradeOk = .forbidden) := by
  constructor
  · intro u r h
    by_cases ht : token = ""
    · simp [Api.WebSocketHandler, ht] at h
    · rcases hv : validateToken token with _ | u2
      · simp [Api.WebSocketHandler, ht, hv] at h
      · by_cases hr : roomIDStr = ""
        · simp [Api.WebSocketHandler, ht, hv, hr] at h
        · rcases hp : parseRoomID roomIDStr with _ | r2
          · simp [Api.WebSocketHandler, ht, hv, hr, hp] at h
          · rcases hmc : memberCheck r2 u2 with e | b
            · simp [Api.WebSocketHandler, ht, hv, hr, hp, hmc] at h
            · rcases b with _ | _
              · simp [Api.WebSocketHandler, ht, hv, hr, hp, hmc] at h
              · by_cases hup : upgradeOk = true
                · have hcomp : Api.WebSocketHandler token validateToken
                      roomIDStr parseRoomID memberCheck upgradeOk =
                      .connected u2 r2 := by
                    simp [Api.WebSocketHandler, ht, hv, hr, hp, hmc, hup]
                  rw [hcomp] at h
                  injection h with h3 h4
                  subst h3
                  subst h4
                  exact ⟨ht, rfl, hr, rfl, hmc⟩
                · simp [Api.WebSocketHandler, ht, hv, hr, hp, hmc, hup] at h
  · intro u r ht hv hr hp hmc
    rcases hm2 : memberCheck r u with e | b
    · simp [Api.WebSocketHandler, ht, hv, hr, hp, hm2]
    · rcases b with _ | _
      · simp [Api.WebSocketHandler, ht, hv, hr, hp, hm2]
      · exact absurd hm2 hmc

/-- Witness for C8: a valid token for user 1, room string parsing to 42,
membership true, upgrade succeeding — the handler connects, and the
theorem recovers the guarantees. -/
theorem webSocketHandler_membership_gates_upgrade_witness :
    Api.WebSocketHandler "tok" (fun s => if s = "tok" then some 1 else none)
        "42" (fun s => if s = "42" then some 42 else none)
        (fun _ _ => .ok true) true = .connected 1 42 ∧
    ("tok" : String) ≠ "" ∧
    (fun s => if s = "tok" then some 1 else none) "tok" = some 1 ∧
    ("42" : String) ≠ "" ∧
    (fun s => if s = "42" then some 42 else none) "42" = some 42 ∧
    (fun (_ _ : Nat) => (Except.ok true : Except Unit Bool)) 42 1 = .ok true :=
  ⟨by decide,
   (webSocketHandler_membership_gates_upgrade "tok"
       (fun s => if s = "tok" then some 1 else none) "42"
       (fun s => if s = "42" then some 42 else none)
       (fun _ _ => .ok true) true).1 1 42 (by decide)⟩
